import Mathlib

/-!
Shallow embedding of `src/lerobot/check_baudrate.py`, a diagnostic utility for
Feetech serial-bus servo motors.  The script's interaction with the operating
system and the vendor SDK (`scservo_sdk`) is modelled by an explicit
environment (`ScsEnv`) that fixes, for one port, the outcome of every SDK
call: whether the SDK can be imported, whether `openPort` succeeds at a given
baud rate, and what `ping` / `read1ByteTxRx` / `read2ByteTxRx` return (a value
triple, or an exception).  Each routine is translated into a pure function
from the environment to its Python return value together with a trace of
observable events (port opens/closes, pings and register reads issued, the
match/mismatch report, the installation hint).
-/

namespace CheckBaudrate

/-- Result of a single SDK call: either the returned value or a raised
exception (`exn`). -/
inductive SDKResult (α : Type) where
  | ok (v : α)
  | exn
deriving DecidableEq, Repr

/-- The `(model_number, comm, error)` triple returned by
`packet_handler.ping`. -/
structure PingReply where
  modelNumber : Nat
  comm : Nat
  error : Nat
deriving DecidableEq, Repr

/-- The `(value, comm, error)` triple returned by
`packet_handler.read1ByteTxRx` / `read2ByteTxRx`. -/
structure ReadReply where
  value : Nat
  comm : Nat
  error : Nat
deriving DecidableEq, Repr

/-- The distinguished communication-success status `scs.COMM_SUCCESS` of the
servo SDK (its concrete value is 0 in the SDK; only its distinguishedness
matters to the script, which compares `comm == scs.COMM_SUCCESS`). -/
def COMM_SUCCESS : Nat := 0

/-- Environment fixing the behaviour of the serial port and the servo SDK for
one port path: `sdkAvailable` is whether `import scservo_sdk` succeeds,
`openPortOk b` is the boolean returned by `port_handler.openPort()` after the
handler was constructed and before the baud rate is set to `b`, `ping b id`
is the outcome of `packet_handler.ping` at baud rate `b` addressed to motor
`id`, `read1 b id addr` / `read2 b id addr` are the outcomes of the 1-byte /
2-byte register reads, and `modelTable` is the external
`MODEL_NUMBER_TABLE` (model name to model number, in iteration order). -/
structure ScsEnv where
  sdkAvailable : Bool
  openPortOk : Nat → Bool
  ping : Nat → Nat → SDKResult PingReply
  read1 : Nat → Nat → Nat → SDKResult ReadReply
  read2 : Nat → Nat → Nat → SDKResult ReadReply
  modelTable : List (String × Nat)

/-- Observable events of a run: port handle lifecycle, protocol requests
issued, the match/mismatch report of the pinger, the torque-enable report of
the detailed reader, and the `pip install scservo_sdk` installation hint. -/
inductive Event where
  | openPort (baudrate : Nat)
  | closePort (baudrate : Nat)
  | pingSent (baudrate : Nat) (motor_id : Nat)
  | readSent (width : Nat) (baudrate : Nat) (motor_id : Nat) (addr : Nat)
  | matchFlag (baudrate : Nat) (matched : Bool)
  | torqueReport (enabled : Bool)
  | hint
deriving DecidableEq, Repr

/-- The module-level `baudrates` list (lines 5-14), used by the raw-serial
prober `check_baudrates`. -/
def baudrates : List Nat :=
  [9600, 19200, 38400, 57600, 115200, 250000, 500000, 1000000]

/-- The literal candidate list iterated by `check_feetech_motor_baudrate`
(line 97); `scan_feetech_bus` (lines 194-203) and
`check_feetech_motor_detailed` (lines 280-289) spell out the same list as a
local `feetech_baudrates` variable. -/
def feetechBaudrates : List Nat :=
  [1000000, 500000, 250000, 128000, 115200, 57600, 38400, 19200]

/-- Decoded value of the `configured_baudrate` field: either an actual rate,
the string `"Unknown"` (register value outside the table), or the string
`"Unable to read"` (register read failed). -/
inductive ConfiguredBaud where
  | rate (n : Nat)
  | unknown
  | unableToRead
deriving DecidableEq, Repr

/-- The `feetech_baudrates` dictionary (lines 83-92, duplicated as
`baudrate_values` at lines 290-299) applied via `.get(value, "Unknown")`:
register values 0-7 map to actual baud rates, everything else to
`"Unknown"`. -/
def feetech_baudrates : Nat → ConfiguredBaud
  | 0 => .rate 1000000
  | 1 => .rate 500000
  | 2 => .rate 250000
  | 3 => .rate 128000
  | 4 => .rate 115200
  | 5 => .rate 57600
  | 6 => .rate 38400
  | 7 => .rate 19200
  | _ => .unknown

/-- The reverse lookup loop over `MODEL_NUMBER_TABLE.items()` (lines 140-144,
230-234, 318-322): starts at `"Unknown"`, takes the first name whose number
equals the reported model number. -/
def lookupModelName : List (String × Nat) → Nat → String
  | [], _ => "Unknown"
  | (name, num) :: rest, model_number =>
    if num = model_number then name else lookupModelName rest model_number

/-- One entry of `successful_communications` in
`check_feetech_motor_baudrate` (lines 147-162). -/
structure CommRecord where
  communication_baudrate : Nat
  configured_baudrate : ConfiguredBaud
  register_value : Option Nat
  model_number : Nat
  model_name : String
deriving DecidableEq, Repr

/-- The `for test_baudrate in [...]` loop of `check_feetech_motor_baudrate`
(lines 97-172).  `.error tr` models the early `return None` taken when
`import scservo_sdk` raises `ImportError` (lines 166-169); `.ok (rs, tr)`
carries the records appended to `successful_communications` and the event
trace.  A generic exception from `ping` or from the register read is caught
by the bare `except Exception` (lines 170-172), which `continue`s to the next
candidate without closing the port. -/
def pingerLoop (env : ScsEnv) (motor_id : Nat) :
    List Nat → Except (List Event) (List CommRecord × List Event)
  | [] => .ok ([], [])
  | test_baudrate :: rest =>
    if env.sdkAvailable = false then
      .error [Event.hint]
    else if env.openPortOk test_baudrate = false then
      pingerLoop env motor_id rest
    else
      match env.ping test_baudrate motor_id with
      | .exn =>
        match pingerLoop env motor_id rest with
        | .error tr =>
          .error (Event.openPort test_baudrate ::
            Event.pingSent test_baudrate motor_id :: tr)
        | .ok (rs, tr) =>
          .ok (rs, Event.openPort test_baudrate ::
            Event.pingSent test_baudrate motor_id :: tr)
      | .ok reply =>
        if reply.comm = COMM_SUCCESS ∧ reply.error = 0 then
          match env.read1 test_baudrate motor_id 6 with
          | .exn =>
            match pingerLoop env motor_id rest with
            | .error tr =>
              .error (Event.openPort test_baudrate ::
                Event.pingSent test_baudrate motor_id ::
                Event.readSent 1 test_baudrate motor_id 6 :: tr)
            | .ok (rs, tr) =>
              .ok (rs, Event.openPort test_baudrate ::
                Event.pingSent test_baudrate motor_id ::
                Event.readSent 1 test_baudrate motor_id 6 :: tr)
          | .ok rr =>
            if rr.comm = COMM_SUCCESS ∧ rr.error = 0 then
              let configured := feetech_baudrates rr.value
              let record : CommRecord :=
                { communication_baudrate := test_baudrate
                  configured_baudrate := configured
                  register_value := some rr.value
                  model_number := reply.modelNumber
                  model_name := lookupModelName env.modelTable reply.modelNumber }
              match pingerLoop env motor_id rest with
              | .error tr =>
                .error (Event.openPort test_baudrate ::
                  Event.pingSent test_baudrate motor_id ::
                  Event.readSent 1 test_baudrate motor_id 6 ::
                  Event.matchFlag test_baudrate
                    (decide (ConfiguredBaud.rate test_baudrate = configured)) ::
                  Event.closePort test_baudrate :: tr)
              | .ok (rs, tr) =>
                .ok (record :: rs, Event.openPort test_baudrate ::
                  Event.pingSent test_baudrate motor_id ::
                  Event.readSent 1 test_baudrate motor_id 6 ::
                  Event.matchFlag test_baudrate
                    (decide (ConfiguredBaud.rate test_baudrate = configured)) ::
                  Event.closePort test_baudrate :: tr)
            else
              let record : CommRecord :=
                { communication_baudrate := test_baudrate
                  configured_baudrate := .unableToRead
                  register_value := none
                  model_number := reply.modelNumber
                  model_name := "Unknown" }
              match pingerLoop env motor_id rest with
              | .error tr =>
                .error (Event.openPort test_baudrate ::
                  Event.pingSent test_baudrate motor_id ::
                  Event.readSent 1 test_baudrate motor_id 6 ::
                  Event.closePort test_baudrate :: tr)
              | .ok (rs, tr) =>
                .ok (record :: rs, Event.openPort test_baudrate ::
                  Event.pingSent test_baudrate motor_id ::
                  Event.readSent 1 test_baudrate motor_id 6 ::
                  Event.closePort test_baudrate :: tr)
        else
          match pingerLoop env motor_id rest with
          | .error tr =>
            .error (Event.openPort test_baudrate ::
              Event.pingSent test_baudrate motor_id ::
              Event.closePort test_baudrate :: tr)
          | .ok (rs, tr) =>
            .ok (rs, Event.openPort test_baudrate ::
              Event.pingSent test_baudrate motor_id ::
              Event.closePort test_baudrate :: tr)

/-- `check_feetech_motor_baudrate(port, motor_id)` (lines 71-185): runs the
candidate sweep and returns `successful_communications[0]` when the list is
non-empty, `None` otherwise (lines 174-185), paired with the event trace. -/
def check_feetech_motor_baudrate (env : ScsEnv) (motor_id : Nat) :
    Option CommRecord × List Event :=
  match pingerLoop env motor_id feetechBaudrates with
  | .error tr => (none, tr)
  | .ok (rs, tr) => (rs.head?, tr)

/-- One entry of `motors_at_baudrate` in `scan_feetech_bus`
(lines 236-241). -/
structure MotorInfo where
  id : Nat
  model_number : Nat
  model_name : String
  baudrate : Nat
deriving DecidableEq, Repr

/-- The `for motor_id in range(1, 21)` inner loop of `scan_feetech_bus`
(lines 222-245) over a list of ids: pings each id and collects a `MotorInfo`
for each successful reply.  The second component is `none` when a `ping`
call raised, which aborts the inner loop (the exception propagates to the
per-baudrate `except Exception`). -/
def scanIdsLoop (env : ScsEnv) (test_baudrate : Nat) :
    List Nat → List Event × Option (List MotorInfo)
  | [] => ([], some [])
  | motor_id :: rest =>
    match env.ping test_baudrate motor_id with
    | .exn => ([Event.pingSent test_baudrate motor_id], none)
    | .ok reply =>
      let tail := scanIdsLoop env test_baudrate rest
      if reply.comm = COMM_SUCCESS ∧ reply.error = 0 then
        let motor_info : MotorInfo :=
          { id := motor_id
            model_number := reply.modelNumber
            model_name := lookupModelName env.modelTable reply.modelNumber
            baudrate := test_baudrate }
        (Event.pingSent test_baudrate motor_id :: tail.1,
         (tail.2).map (fun ms => motor_info :: ms))
      else
        (Event.pingSent test_baudrate motor_id :: tail.1, tail.2)

/-- The `for test_baudrate in feetech_baudrates` loop of `scan_feetech_bus`
(lines 207-258).  `.error tr` models the early `return None` on
`ImportError` (lines 252-255); `.ok (fm, tr)` carries the `found_motors`
mapping (an association list in insertion order, i.e. candidate order —
Python dicts preserve insertion order) and the event trace.  A rate is added
only when `motors_at_baudrate` is non-empty (lines 247-248); a per-rate
exception is caught and `continue`s without closing the port
(lines 256-258). -/
def scanLoop (env : ScsEnv) :
    List Nat → Except (List Event) (List (Nat × List MotorInfo) × List Event)
  | [] => .ok ([], [])
  | test_baudrate :: rest =>
    if env.sdkAvailable = false then
      .error [Event.hint]
    else if env.openPortOk test_baudrate = false then
      scanLoop env rest
    else
      match scanIdsLoop env test_baudrate (List.range' 1 20) with
      | (trIds, none) =>
        match scanLoop env rest with
        | .error tr => .error (Event.openPort test_baudrate :: trIds ++ tr)
        | .ok (fm, tr) => .ok (fm, Event.openPort test_baudrate :: trIds ++ tr)
      | (trIds, some motors) =>
        match scanLoop env rest with
        | .error tr =>
          .error (Event.openPort test_baudrate :: trIds ++
            Event.closePort test_baudrate :: tr)
        | .ok (fm, tr) =>
          .ok ((if motors.isEmpty then fm else (test_baudrate, motors) :: fm),
            Event.openPort test_baudrate :: trIds ++
              Event.closePort test_baudrate :: tr)

/-- `scan_feetech_bus(port)` (lines 188-263): returns the `found_motors`
mapping, or `None` when the SDK import failed, paired with the trace. -/
def scan_feetech_bus (env : ScsEnv) :
    Option (List (Nat × List MotorInfo)) × List Event :=
  match scanLoop env feetechBaudrates with
  | .error tr => (none, tr)
  | .ok (fm, tr) => (some fm, tr)

/-- One register read inside the inner `try` of
`check_feetech_motor_detailed`: the request is issued, and when it raises,
the rest of the straight-line read sequence is abandoned (the exception is
caught by the inner `except` at lines 373-374). -/
def readStep (r : SDKResult ReadReply) (w b motor_id addr : Nat)
    (rest : List Event) : List Event :=
  Event.readSent w b motor_id addr ::
    match r with
    | .exn => []
    | .ok _ => rest

/-- The inner `try` block of `check_feetech_motor_detailed` (lines 327-374):
the fixed straight-line sequence of register reads after a successful ping.
Each read that raises aborts the remaining reads; the returned values are
only printed, except the torque-enable value whose truthiness is reported
(line 371). -/
def detailedRegisterDump (env : ScsEnv) (b motor_id : Nat) : List Event :=
  readStep (env.read1 b motor_id 6) 1 b motor_id 6
    (readStep (env.read1 b motor_id 5) 1 b motor_id 5
      (readStep (env.read1 b motor_id 0) 1 b motor_id 0
        (readStep (env.read1 b motor_id 1) 1 b motor_id 1
          (readStep (env.read2 b motor_id 9) 2 b motor_id 9
            (readStep (env.read2 b motor_id 11) 2 b motor_id 11
              (readStep (env.read2 b motor_id 56) 2 b motor_id 56
                (Event.readSent 1 b motor_id 40 ::
                  match env.read1 b motor_id 40 with
                  | .exn => []
                  | .ok torque =>
                    [Event.torqueReport (decide (torque.value ≠ 0))])))))))

/-- The `for test_baudrate in feetech_baudrates` loop of
`check_feetech_motor_detailed` (lines 301-382).  On the first successful
ping it runs the register dump, closes the port and returns `True`
(lines 314-377); an exception raised by `ping` itself propagates to the
outer `except Exception` (lines 388-390), which returns `False` without
closing the port and without trying further candidates. -/
def detailedLoop (env : ScsEnv) (motor_id : Nat) :
    List Nat → Bool × List Event
  | [] => (false, [])
  | test_baudrate :: rest =>
    if env.openPortOk test_baudrate = false then
      detailedLoop env motor_id rest
    else
      match env.ping test_baudrate motor_id with
      | .exn =>
        (false, [Event.openPort test_baudrate,
          Event.pingSent test_baudrate motor_id])
      | .ok reply =>
        if reply.comm = COMM_SUCCESS ∧ reply.error = 0 then
          (true, Event.openPort test_baudrate ::
            Event.pingSent test_baudrate motor_id ::
            (detailedRegisterDump env test_baudrate motor_id ++
              [Event.closePort test_baudrate]))
        else
          let tail := detailedLoop env motor_id rest
          (tail.1, Event.openPort test_baudrate ::
            Event.pingSent test_baudrate motor_id ::
            Event.closePort test_baudrate :: tail.2)

/-- `check_feetech_motor_detailed(port, motor_id)` (lines 266-390): the
SDK import at the top of the outer `try` (line 269) fails straight into
the `except ImportError` (lines 384-387), which prints the hint and returns
`False`; otherwise the candidate loop runs and the function returns whether
a motor was found. -/
def check_feetech_motor_detailed (env : ScsEnv) (motor_id : Nat) :
    Bool × List Event :=
  if env.sdkAvailable = false then (false, [Event.hint])
  else detailedLoop env motor_id feetechBaudrates

/-- The `for baudrate in baudrates` loop of the raw-serial prober
`check_baudrates` (lines 17-31) over a list of rates: each candidate is
opened inside a `with serial.Serial(...)` block whose body only prints, so a
successful open is always paired with a close (the context manager closes on
exit), and a failed open raises before any handle exists and is caught
per-candidate. -/
def proberLoop (openOk : Nat → Bool) : List Nat → List Event
  | [] => []
  | baudrate :: rest =>
    (if openOk baudrate then
      [Event.openPort baudrate, Event.closePort baudrate]
    else []) ++ proberLoop openOk rest

/-- `check_baudrates(port)` (lines 17-31): the event trace of the sweep over
the module-level `baudrates` list, given which rates open successfully. -/
def check_baudrates (openOk : Nat → Bool) : List Event :=
  proberLoop openOk baudrates

/-- Runs the port-handle scope discipline over a trace from a given
open/closed state: an `openPort` is legal only when no handle is open, a
`closePort` only when one is; returns the final state, or `none` when the
discipline is violated. -/
def scopeRun : List Event → Bool → Option Bool
  | [], isOpen => some isOpen
  | Event.openPort _ :: rest, isOpen =>
    if isOpen then none else scopeRun rest true
  | Event.closePort _ :: rest, isOpen =>
    if isOpen then scopeRun rest false else none
  | _ :: rest, isOpen => scopeRun rest isOpen

/-- A trace is handle-balanced when, starting closed, at most one handle is
ever open at a time and the trace ends with the handle closed. -/
def handlesBalanced (tr : List Event) : Bool :=
  scopeRun tr false == some false

/-- The ping requests of a trace, in order, as `(baudrate, motor_id)`
pairs. -/
def pingCalls : List Event → List (Nat × Nat)
  | [] => []
  | Event.pingSent b id :: rest => (b, id) :: pingCalls rest
  | _ :: rest => pingCalls rest

/-- The register-read requests of a trace, in order, as
`(width, baudrate, motor_id, addr)` tuples. -/
def readCalls : List Event → List (Nat × Nat × Nat × Nat)
  | [] => []
  | Event.readSent w b id addr :: rest => (w, b, id, addr) :: readCalls rest
  | _ :: rest => readCalls rest

/-- Whether the ping at baud rate `b` addressed to `motor_id` is answered
successfully: the call returns (rather than raises) with the
communication-success status and a zero error code. -/
def pingSucceeds (env : ScsEnv) (b motor_id : Nat) : Bool :=
  match env.ping b motor_id with
  | .exn => false
  | .ok reply => decide (reply.comm = COMM_SUCCESS ∧ reply.error = 0)

/-- The `CommRecord` the pinger builds for a rate at which the ping
succeeded, as a function of the environment (meaningful when neither the
ping nor the register read at that rate raises). -/
def recordAt (env : ScsEnv) (motor_id b : Nat) : CommRecord :=
  match env.ping b motor_id, env.read1 b motor_id 6 with
  | .ok reply, .ok rr =>
    if rr.comm = COMM_SUCCESS ∧ rr.error = 0 then
      { communication_baudrate := b
        configured_baudrate := feetech_baudrates rr.value
        register_value := some rr.value
        model_number := reply.modelNumber
        model_name := lookupModelName env.modelTable reply.modelNumber }
    else
      { communication_baudrate := b
        configured_baudrate := .unableToRead
        register_value := none
        model_number := reply.modelNumber
        model_name := "Unknown" }
  | _, _ =>
    { communication_baudrate := b
      configured_baudrate := .unableToRead
      register_value := none
      model_number := 0
      model_name := "Unknown" }

/-- The `MotorInfo` the scanner builds for an id that answered at rate `b`
(meaningful when the ping did not raise). -/
def motorInfoAt (env : ScsEnv) (b motor_id : Nat) : MotorInfo :=
  match env.ping b motor_id with
  | .ok reply =>
    { id := motor_id
      model_number := reply.modelNumber
      model_name := lookupModelName env.modelTable reply.modelNumber
      baudrate := b }
  | .exn =>
    { id := motor_id, model_number := 0, model_name := "Unknown",
      baudrate := b }

/-- The list of motor records the scanner collects at rate `b`: the ids
1-20 whose ping succeeds, in ascending order. -/
def respondersAt (env : ScsEnv) (b : Nat) : List MotorInfo :=
  ((List.range' 1 20).filter (fun id => pingSucceeds env b id)).map
    (motorInfoAt env b)

/-- The `ping` SDK call never raises in this environment. -/
def pingNoExn (env : ScsEnv) : Prop :=
  ∀ b id, env.ping b id ≠ SDKResult.exn

/-- The 1-byte register read never raises in this environment. -/
def read1NoExn (env : ScsEnv) : Prop :=
  ∀ b id addr, env.read1 b id addr ≠ SDKResult.exn

/-- The 2-byte register read never raises in this environment. -/
def read2NoExn (env : ScsEnv) : Prop :=
  ∀ b id addr, env.read2 b id addr ≠ SDKResult.exn

/-- No SDK call raises in this environment. -/
def noExn (env : ScsEnv) : Prop :=
  pingNoExn env ∧ read1NoExn env ∧ read2NoExn env

/-- The event trace carried by a loop outcome, whether the loop ended by the
`ImportError` early return or normally. -/
def exceptTrace {ρ : Type} : Except (List Event) (ρ × List Event) → List Event
  | .error tr => tr
  | .ok (_, tr) => tr

/-- Test environment: the SDK imports, every open succeeds, every ping is
answered by a motor with model number 777, and every register read returns
value 0 with success status. -/
def envAllOk : ScsEnv :=
  { sdkAvailable := true
    openPortOk := fun _ => true
    ping := fun _ _ => .ok { modelNumber := 777, comm := COMM_SUCCESS, error := 0 }
    read1 := fun _ _ _ => .ok { value := 0, comm := COMM_SUCCESS, error := 0 }
    read2 := fun _ _ _ => .ok { value := 0, comm := COMM_SUCCESS, error := 0 }
    modelTable := [("sts3215", 777)] }

/-- Test environment: `import scservo_sdk` raises `ImportError`. -/
def envNoSdk : ScsEnv :=
  { envAllOk with sdkAvailable := false }

/-- Test environment: every `ping` call raises an exception after the port
was opened. -/
def envLeak : ScsEnv :=
  { envAllOk with ping := fun _ _ => .exn }

/-- Test environment for the bus-scan mock: only ids 3 and 7 answer, and
only at baud rate 1,000,000; every other ping returns a non-success
communication status. -/
def envScanMock : ScsEnv :=
  { envAllOk with
    ping := fun b motor_id =>
      if b = 1000000 ∧ (motor_id = 3 ∨ motor_id = 7) then
        .ok { modelNumber := 777, comm := COMM_SUCCESS, error := 0 }
      else
        .ok { modelNumber := 777, comm := 1, error := 0 } }

/-- Test environment: every ping succeeds and the baud-rate register reads
back code value 2 (configured rate 250,000). -/
def envMismatch : ScsEnv :=
  { envAllOk with
    read1 := fun _ _ _ => .ok { value := 2, comm := COMM_SUCCESS, error := 0 } }

/-- Test environment: every ping succeeds but the baud-rate register read
comes back with a non-success communication status. -/
def envReadFail : ScsEnv :=
  { envAllOk with
    read1 := fun _ _ _ => .ok { value := 0, comm := 1, error := 0 } }

/-- Test environment: every ping succeeds and the baud-rate register reads
back the out-of-table code value 9. -/
def envUnknownReg : ScsEnv :=
  { envAllOk with
    read1 := fun _ _ _ => .ok { value := 9, comm := COMM_SUCCESS, error := 0 } }

/-- Test environment: every ping succeeds but every register read raises an
exception. -/
def envDumpExn : ScsEnv :=
  { envAllOk with
    read1 := fun _ _ _ => .exn
    read2 := fun _ _ _ => .exn }

/-- An SDK call that does not raise returns some value. -/
theorem SDKResult.ne_exn_iff {α : Type} (x : SDKResult α) :
    x ≠ SDKResult.exn ↔ ∃ v, x = SDKResult.ok v := by
  cases x with
  | ok v => simp
  | exn => simp

/-- The scope discipline runs compositionally over concatenation. -/
theorem scopeRun_append (l1 l2 : List Event) (s : Bool) :
    scopeRun (l1 ++ l2) s = (scopeRun l1 s).bind (fun t => scopeRun l2 t) := by
  induction l1 generalizing s with
  | nil => simp [scopeRun]
  | cons e rest ih =>
    cases e <;> simp only [List.cons_append, scopeRun] <;>
      first
        | exact ih _
        | (split <;> simp [ih])

/-- `pingCalls` distributes over concatenation. -/
theorem pingCalls_append (l1 l2 : List Event) :
    pingCalls (l1 ++ l2) = pingCalls l1 ++ pingCalls l2 := by
  induction l1 with
  | nil => simp [pingCalls]
  | cons e rest ih => cases e <;> simp [pingCalls, ih]

/-- `readCalls` distributes over concatenation. -/
theorem readCalls_append (l1 l2 : List Event) :
    readCalls (l1 ++ l2) = readCalls l1 ++ readCalls l2 := by
  induction l1 with
  | nil => simp [readCalls]
  | cons e rest ih => cases e <;> simp [readCalls, ih]

/-- Register values 8 and above are outside the `feetech_baudrates` table
and decode to `"Unknown"`. -/
theorem feetech_baudrates_of_ge (v : Nat) (hv : 8 ≤ v) :
    feetech_baudrates v = ConfiguredBaud.unknown := by
  obtain ⟨w, rfl⟩ : ∃ w, v = w + 8 := ⟨v - 8, by omega⟩
  rfl

/-- The record built for a rate always carries that rate as its
communication baud rate. -/
theorem recordAt_communication_baudrate (env : ScsEnv) (motor_id b : Nat) :
    (recordAt env motor_id b).communication_baudrate = b := by
  unfold recordAt
  rcases env.ping b motor_id with reply | _
  · rcases env.read1 b motor_id 6 with rr | _
    · by_cases h : rr.comm = COMM_SUCCESS ∧ rr.error = 0 <;> simp [h]
    · rfl
  · rfl

/-- The scanner record built for an id always carries that id. -/
theorem motorInfoAt_id (env : ScsEnv) (b motor_id : Nat) :
    (motorInfoAt env b motor_id).id = motor_id := by
  unfold motorInfoAt
  rcases env.ping b motor_id with reply | _ <;> rfl

/-- Master description of the pinger sweep in an execution where the SDK
is importable, every `openPort` succeeds, and no SDK call raises: the sweep
returns one record per rate whose ping succeeded, in candidate order, built
as `recordAt`; it pings every candidate rate in order; its trace is
handle-balanced; and for every candidate whose ping and register read both
succeed, the trace reports whether the decoded configured rate matches the
communication rate. -/
theorem pingerLoop_run (env : ScsEnv) (motor_id : Nat)
    (hsdk : env.sdkAvailable = true) (hopen : ∀ b, env.openPortOk b = true)
    (hpx : pingNoExn env) (hr1 : read1NoExn env) (bs : List Nat) :
    ∃ tr,
      pingerLoop env motor_id bs =
        .ok ((bs.filter (fun b => pingSucceeds env b motor_id)).map
          (recordAt env motor_id), tr) ∧
      pingCalls tr = bs.map (fun b => (b, motor_id)) ∧
      scopeRun tr false = some false ∧
      (∀ b reply rr, b ∈ bs → env.ping b motor_id = .ok reply →
        reply.comm = COMM_SUCCESS ∧ reply.error = 0 →
        env.read1 b motor_id 6 = .ok rr →
        rr.comm = COMM_SUCCESS ∧ rr.error = 0 →
        Event.matchFlag b
          (decide (ConfiguredBaud.rate b = feetech_baudrates rr.value)) ∈ tr) ∧
      (∀ x m, Event.matchFlag x m ∈ tr → ∃ reply rr,
        env.ping x motor_id = SDKResult.ok reply ∧
        reply.comm = COMM_SUCCESS ∧ reply.error = 0 ∧
        env.read1 x motor_id 6 = SDKResult.ok rr ∧
        rr.comm = COMM_SUCCESS ∧ rr.error = 0 ∧
        m = decide (ConfiguredBaud.rate x = feetech_baudrates rr.value)) := by
  induction bs with
  | nil =>
    exact ⟨[], rfl, rfl, rfl, by intro b reply rr hb; simp at hb,
      by intro x m hm; simp at hm⟩
  | cons b rest ih =>
    obtain ⟨tr, htr, hping, hscope, hmatch, hinv⟩ := ih
    obtain ⟨reply, hreply⟩ := (SDKResult.ne_exn_iff _).1 (hpx b motor_id)
    by_cases hc : reply.comm = COMM_SUCCESS ∧ reply.error = 0
    · obtain ⟨rr, hrr⟩ := (SDKResult.ne_exn_iff _).1 (hr1 b motor_id 6)
      by_cases hc2 : rr.comm = COMM_SUCCESS ∧ rr.error = 0
      · refine ⟨Event.openPort b :: Event.pingSent b motor_id ::
          Event.readSent 1 b motor_id 6 ::
          Event.matchFlag b
            (decide (ConfiguredBaud.rate b = feetech_baudrates rr.value)) ::
          Event.closePort b :: tr, ?_, ?_, ?_, ?_, ?_⟩
        · simp only [pingerLoop, hsdk, hopen b, hreply, htr,
            Bool.true_eq_false, if_false, if_pos hc, hrr, if_pos hc2]
          simp only [List.filter_cons, pingSucceeds, hreply, decide_eq_true hc]
          simp [recordAt, hreply, hrr, hc2]
        · simp [pingCalls, hping]
        · simp [scopeRun, hscope]
        · intro x xreply xrr hx hxr hxc hxr1 hxc2
          rcases List.mem_cons.1 hx with rfl | hx
          · rw [hreply] at hxr
            rw [hrr] at hxr1
            cases hxr
            cases hxr1
            simp
          · have := hmatch x xreply xrr hx hxr hxc hxr1 hxc2
            simp [this]
        · intro x m hm
          simp only [List.mem_cons] at hm
          rcases hm with h | h | h | h | h | hm
          · exact absurd h (by simp)
          · exact absurd h (by simp)
          · exact absurd h (by simp)
          · injection h with h1 h2
            subst h1
            subst h2
            exact ⟨reply, rr, hreply, hc.1, hc.2, hrr, hc2.1, hc2.2, rfl⟩
          · exact absurd h (by simp)
          · exact hinv x m hm
      · refine ⟨Event.openPort b :: Event.pingSent b motor_id ::
          Event.readSent 1 b motor_id 6 :: Event.closePort b :: tr,
          ?_, ?_, ?_, ?_, ?_⟩
        · simp only [pingerLoop, hsdk, hopen b, hreply, htr,
            Bool.true_eq_false, if_false, if_pos hc, hrr, if_neg hc2]
          simp only [List.filter_cons, pingSucceeds, hreply, decide_eq_true hc]
          simp [recordAt, hreply, hrr, hc2]
        · simp [pingCalls, hping]
        · simp [scopeRun, hscope]
        · intro x xreply xrr hx hxr hxc hxr1 hxc2
          rcases List.mem_cons.1 hx with rfl | hx
          · rw [hrr] at hxr1
            cases hxr1
            exact absurd hxc2 hc2
          · have := hmatch x xreply xrr hx hxr hxc hxr1 hxc2
            simp [this]
        · intro x m hm
          simp only [List.mem_cons] at hm
          rcases hm with h | h | h | h | hm
          · exact absurd h (by simp)
          · exact absurd h (by simp)
          · exact absurd h (by simp)
          · exact absurd h (by simp)
          · exact hinv x m hm
    · refine ⟨Event.openPort b :: Event.pingSent b motor_id ::
        Event.closePort b :: tr, ?_, ?_, ?_, ?_, ?_⟩
      · simp only [pingerLoop, hsdk, hopen b, hreply, htr,
          Bool.true_eq_false, if_false, if_neg hc]
        simp only [List.filter_cons, pingSucceeds, hreply,
          decide_eq_false hc, List.map_cons]
        simp
      · simp [pingCalls, hping]
      · simp [scopeRun, hscope]
      · intro x xreply xrr hx hxr hxc hxr1 hxc2
        rcases List.mem_cons.1 hx with rfl | hx
        · rw [hreply] at hxr
          cases hxr
          exact absurd hxc hc
        · have := hmatch x xreply xrr hx hxr hxc hxr1 hxc2
          simp [this]
      · intro x m hm
        simp only [List.mem_cons] at hm
        rcases hm with h | h | h | hm
        · exact absurd h (by simp)
        · exact absurd h (by simp)
        · exact absurd h (by simp)
        · exact hinv x m hm

/-- A `find?` over a list is the head of the corresponding `filter`. -/
theorem find?_eq_filter_head? (p : Nat → Bool) (l : List Nat) :
    l.find? p = (l.filter p).head? := by
  induction l with
  | nil => rfl
  | cons a l ih =>
    cases h : p a
    · rw [List.find?_cons_of_neg _ (by simp [h]),
        List.filter_cons_of_neg (by simp [h]), ih]
    · rw [List.find?_cons_of_pos _ h, List.filter_cons_of_pos h,
        List.head?_cons]

/-- A trace made only of ping requests records those requests. -/
theorem pingCalls_map_pingSent (b : Nat) (ids : List Nat) :
    pingCalls (ids.map (fun motor_id => Event.pingSent b motor_id)) =
      ids.map (fun motor_id => (b, motor_id)) := by
  induction ids with
  | nil => rfl
  | cons motor_id rest ih => simp [pingCalls, ih]

/-- A trace made only of ping requests does not touch the port handle. -/
theorem scopeRun_map_pingSent (b : Nat) (ids : List Nat) (s : Bool) :
    scopeRun (ids.map (fun motor_id => Event.pingSent b motor_id)) s =
      some s := by
  induction ids with
  | nil => rfl
  | cons motor_id rest ih => simp [scopeRun, ih]

/-- `pingCalls` of the empty trace. -/
theorem pingCalls_nil : pingCalls [] = [] := rfl

/-- `pingCalls` skips an open event. -/
theorem pingCalls_openPort (b : Nat) (l : List Event) :
    pingCalls (Event.openPort b :: l) = pingCalls l := rfl

/-- `pingCalls` skips a close event. -/
theorem pingCalls_closePort (b : Nat) (l : List Event) :
    pingCalls (Event.closePort b :: l) = pingCalls l := rfl

/-- `pingCalls` records a ping event. -/
theorem pingCalls_pingSent (b motor_id : Nat) (l : List Event) :
    pingCalls (Event.pingSent b motor_id :: l) =
      (b, motor_id) :: pingCalls l := rfl

/-- `readCalls` of the empty trace. -/
theorem readCalls_nil : readCalls [] = [] := rfl

/-- `readCalls` skips an open event. -/
theorem readCalls_openPort (b : Nat) (l : List Event) :
    readCalls (Event.openPort b :: l) = readCalls l := rfl

/-- `readCalls` skips a close event. -/
theorem readCalls_closePort (b : Nat) (l : List Event) :
    readCalls (Event.closePort b :: l) = readCalls l := rfl

/-- `readCalls` skips a ping event. -/
theorem readCalls_pingSent (b motor_id : Nat) (l : List Event) :
    readCalls (Event.pingSent b motor_id :: l) = readCalls l := rfl

/-- The scope run of the empty trace keeps its state. -/
theorem scopeRun_nil (s : Bool) : scopeRun [] s = some s := rfl

/-- Opening from the closed state moves to the open state. -/
theorem scopeRun_openPort_closed (b : Nat) (l : List Event) :
    scopeRun (Event.openPort b :: l) false = scopeRun l true := rfl

/-- Closing from the open state moves to the closed state. -/
theorem scopeRun_closePort_open (b : Nat) (l : List Event) :
    scopeRun (Event.closePort b :: l) true = scopeRun l false := rfl

/-- A ping event does not change the handle state. -/
theorem scopeRun_pingSent (b motor_id : Nat) (l : List Event) (s : Bool) :
    scopeRun (Event.pingSent b motor_id :: l) s = scopeRun l s := rfl

/-- A read step never touches the port handle. -/
theorem readStep_scope (r : SDKResult ReadReply) (w b motor_id addr : Nat)
    (rest : List Event) (s : Bool) (hrest : scopeRun rest s = some s) :
    scopeRun (readStep r w b motor_id addr rest) s = some s := by
  cases r <;> simp [readStep, scopeRun, hrest]

/-- A read step issues no ping requests. -/
theorem readStep_pings (r : SDKResult ReadReply) (w b motor_id addr : Nat)
    (rest : List Event) (hrest : pingCalls rest = []) :
    pingCalls (readStep r w b motor_id addr rest) = [] := by
  cases r <;> simp [readStep, pingCalls, hrest]

/-- The register dump never touches the port handle, no matter which reads
raise. -/
theorem detailedRegisterDump_scope (env : ScsEnv) (b motor_id : Nat)
    (s : Bool) :
    scopeRun (detailedRegisterDump env b motor_id) s = some s := by
  unfold detailedRegisterDump
  refine readStep_scope _ _ _ _ _ _ _ (readStep_scope _ _ _ _ _ _ _
    (readStep_scope _ _ _ _ _ _ _ (readStep_scope _ _ _ _ _ _ _
      (readStep_scope _ _ _ _ _ _ _ (readStep_scope _ _ _ _ _ _ _
        (readStep_scope _ _ _ _ _ _ _ ?_))))))
  cases env.read1 b motor_id 40 <;> simp [scopeRun]

/-- The register dump issues no ping requests, no matter which reads
raise. -/
theorem detailedRegisterDump_pings (env : ScsEnv) (b motor_id : Nat) :
    pingCalls (detailedRegisterDump env b motor_id) = [] := by
  unfold detailedRegisterDump
  refine readStep_pings _ _ _ _ _ _ (readStep_pings _ _ _ _ _ _
    (readStep_pings _ _ _ _ _ _ (readStep_pings _ _ _ _ _ _
      (readStep_pings _ _ _ _ _ _ (readStep_pings _ _ _ _ _ _
        (readStep_pings _ _ _ _ _ _ ?_))))))
  cases env.read1 b motor_id 40 <;> simp [pingCalls]

/-- When no register read raises, the dump is exactly the fixed straight-line
sequence: 1-byte reads at addresses 6, 5, 0, 1, then 2-byte reads at 9, 11,
56, then the 1-byte read at 40 whose value is reported as a boolean. -/
theorem detailedRegisterDump_run (env : ScsEnv) (b motor_id : Nat)
    (hr1 : read1NoExn env) (hr2 : read2NoExn env) :
    ∃ t, env.read1 b motor_id 40 = .ok t ∧
      detailedRegisterDump env b motor_id =
        [Event.readSent 1 b motor_id 6, Event.readSent 1 b motor_id 5,
         Event.readSent 1 b motor_id 0, Event.readSent 1 b motor_id 1,
         Event.readSent 2 b motor_id 9, Event.readSent 2 b motor_id 11,
         Event.readSent 2 b motor_id 56, Event.readSent 1 b motor_id 40,
         Event.torqueReport (decide (t.value ≠ 0))] := by
  obtain ⟨r6, h6⟩ := (SDKResult.ne_exn_iff _).1 (hr1 b motor_id 6)
  obtain ⟨r5, h5⟩ := (SDKResult.ne_exn_iff _).1 (hr1 b motor_id 5)
  obtain ⟨r0, h0⟩ := (SDKResult.ne_exn_iff _).1 (hr1 b motor_id 0)
  obtain ⟨r1, h1⟩ := (SDKResult.ne_exn_iff _).1 (hr1 b motor_id 1)
  obtain ⟨r9, h9⟩ := (SDKResult.ne_exn_iff _).1 (hr2 b motor_id 9)
  obtain ⟨r11, h11⟩ := (SDKResult.ne_exn_iff _).1 (hr2 b motor_id 11)
  obtain ⟨r56, h56⟩ := (SDKResult.ne_exn_iff _).1 (hr2 b motor_id 56)
  obtain ⟨r40, h40⟩ := (SDKResult.ne_exn_iff _).1 (hr1 b motor_id 40)
  exact ⟨r40, h40, by
    simp [detailedRegisterDump, readStep, h6, h5, h0, h1, h9, h11, h56, h40]⟩

/-- Master description of the inner id sweep of the scanner at one rate,
when `ping` never raises: it pings ids in order and collects a record for
each id that answered, in ascending id order. -/
theorem scanIdsLoop_run (env : ScsEnv) (b : Nat) (hpx : pingNoExn env)
    (ids : List Nat) :
    scanIdsLoop env b ids =
      (ids.map (fun motor_id => Event.pingSent b motor_id),
       some ((ids.filter (fun motor_id => pingSucceeds env b motor_id)).map
         (motorInfoAt env b))) := by
  induction ids with
  | nil => rfl
  | cons motor_id rest ih =>
    obtain ⟨reply, hreply⟩ := (SDKResult.ne_exn_iff _).1 (hpx b motor_id)
    by_cases hc : reply.comm = COMM_SUCCESS ∧ reply.error = 0
    · simp [scanIdsLoop, hreply, hc, ih, List.filter_cons, pingSucceeds,
        motorInfoAt]
    · simp [scanIdsLoop, hreply, hc, ih, List.filter_cons, pingSucceeds]

/-- Master description of the scanner sweep when the SDK imports, every
open succeeds and `ping` never raises: the returned mapping keeps, in
candidate order, exactly the rates whose responder list is non-empty, each
paired with its responders; all 160 pings are issued; and the trace is
handle-balanced. -/
theorem scanLoop_run (env : ScsEnv) (hsdk : env.sdkAvailable = true)
    (hopen : ∀ b, env.openPortOk b = true) (hpx : pingNoExn env)
    (bs : List Nat) :
    ∃ tr,
      scanLoop env bs =
        .ok ((bs.map (fun b => (b, respondersAt env b))).filter
          (fun p => !p.2.isEmpty), tr) ∧
      pingCalls tr =
        (bs.map (fun b =>
          (List.range' 1 20).map (fun motor_id => (b, motor_id)))).flatten ∧
      scopeRun tr false = some false := by
  induction bs with
  | nil => exact ⟨[], rfl, rfl, rfl⟩
  | cons b rest ih =>
    obtain ⟨tr, htr, hping, hscope⟩ := ih
    refine ⟨Event.openPort b ::
      ((List.range' 1 20).map (fun motor_id => Event.pingSent b motor_id) ++
        Event.closePort b :: tr), ?_, ?_, ?_⟩
    · simp only [scanLoop, hsdk, hopen b, Bool.true_eq_false, if_false,
        scanIdsLoop_run env b hpx, htr]
      simp only [respondersAt, List.map_cons, List.filter_cons]
      cases hm : (((List.range' 1 20).filter
          (fun motor_id => pingSucceeds env b motor_id)).map
          (motorInfoAt env b)).isEmpty <;>
        simp [hm]
    · simp only [pingCalls, pingCalls_append, pingCalls_map_pingSent,
        List.map_cons, List.flatten_cons, hping]
      rfl
    · simp only [scopeRun, if_false, Bool.false_eq_true, scopeRun_append,
        scopeRun_map_pingSent, Option.bind_some]
      simpa [scopeRun] using hscope

/-- Master description of the detailed-reader sweep when every open succeeds
and `ping` never raises (register reads may raise): if some candidate's ping
succeeds, the loop stops at the first such rate, returns `True`, issues
exactly the dump's register reads, closes the port, and keeps its trace
handle-balanced; if no candidate's ping succeeds, it returns `False` after
pinging every candidate, with no register read and a balanced trace. -/
theorem detailedLoop_run (env : ScsEnv) (motor_id : Nat)
    (hopen : ∀ b, env.openPortOk b = true) (hpx : pingNoExn env)
    (bs : List Nat) :
    (∀ b, bs.find? (fun x => pingSucceeds env x motor_id) = some b →
      (detailedLoop env motor_id bs).1 = true ∧
      pingCalls (detailedLoop env motor_id bs).2 =
        ((bs.takeWhile (fun x => !pingSucceeds env x motor_id)) ++ [b]).map
          (fun x => (x, motor_id)) ∧
      readCalls (detailedLoop env motor_id bs).2 =
        readCalls (detailedRegisterDump env b motor_id) ∧
      Event.closePort b ∈ (detailedLoop env motor_id bs).2 ∧
      (∀ e ∈ detailedRegisterDump env b motor_id,
        e ∈ (detailedLoop env motor_id bs).2) ∧
      scopeRun (detailedLoop env motor_id bs).2 false = some false) ∧
    (bs.find? (fun x => pingSucceeds env x motor_id) = none →
      (detailedLoop env motor_id bs).1 = false ∧
      readCalls (detailedLoop env motor_id bs).2 = [] ∧
      pingCalls (detailedLoop env motor_id bs).2 =
        bs.map (fun x => (x, motor_id)) ∧
      scopeRun (detailedLoop env motor_id bs).2 false = some false) := by
  induction bs with
  | nil =>
    refine ⟨fun b hb => by simp at hb, fun _ => ⟨rfl, rfl, rfl, rfl⟩⟩
  | cons c rest ih =>
    obtain ⟨reply, hreply⟩ := (SDKResult.ne_exn_iff _).1 (hpx c motor_id)
    by_cases hc : reply.comm = COMM_SUCCESS ∧ reply.error = 0
    · have hps : pingSucceeds env c motor_id = true := by
        simp [pingSucceeds, hreply, hc]
      have hfind : (c :: rest).find?
          (fun x => pingSucceeds env x motor_id) = some c :=
        List.find?_cons_of_pos _ hps
      have hloop : detailedLoop env motor_id (c :: rest) =
          (true, Event.openPort c :: Event.pingSent c motor_id ::
            (detailedRegisterDump env c motor_id ++ [Event.closePort c])) := by
        simp [detailedLoop, hopen c, hreply, hc]
      constructor
      · intro b hb
        rw [hfind] at hb
        cases hb
        refine ⟨by rw [hloop], ?_, ?_, ?_, ?_, ?_⟩
        · rw [hloop]
          simp only [pingCalls_openPort, pingCalls_pingSent, pingCalls_append,
            detailedRegisterDump_pings, pingCalls_closePort, pingCalls_nil]
          simp [List.takeWhile_cons, hps]
        · rw [hloop]
          simp only [readCalls_openPort, readCalls_pingSent, readCalls_append,
            readCalls_closePort, readCalls_nil, List.append_nil]
        · rw [hloop]
          simp
        · intro e he
          rw [hloop]
          simp only [List.mem_cons, List.mem_append]
          exact Or.inr (Or.inr (Or.inl he))
        · rw [hloop]
          simp only [scopeRun_openPort_closed, scopeRun_pingSent,
            scopeRun_append, detailedRegisterDump_scope]
          simp [scopeRun_closePort_open, scopeRun_nil]
      · intro hnone
        rw [hfind] at hnone
        cases hnone
    · have hps : pingSucceeds env c motor_id = false := by
        simp [pingSucceeds, hreply, hc]
      have hfind : (c :: rest).find? (fun x => pingSucceeds env x motor_id) =
          rest.find? (fun x => pingSucceeds env x motor_id) :=
        List.find?_cons_of_neg _ (by simp [hps])
      have hloop : detailedLoop env motor_id (c :: rest) =
          ((detailedLoop env motor_id rest).1,
            Event.openPort c :: Event.pingSent c motor_id ::
              Event.closePort c :: (detailedLoop env motor_id rest).2) := by
        simp [detailedLoop, hopen c, hreply, hc]
      constructor
      · intro b hb
        rw [hfind] at hb
        obtain ⟨h1, h2, h3, h4, h5, h6⟩ := ih.1 b hb
        refine ⟨by rw [hloop]; exact h1, ?_, ?_, ?_, ?_, ?_⟩
        · rw [hloop]
          simp [pingCalls, h2, List.takeWhile_cons, hps]
        · rw [hloop]
          simpa [readCalls] using h3
        · rw [hloop]
          simp [h4]
        · intro e he
          rw [hloop]
          simp only [List.mem_cons]
          exact Or.inr (Or.inr (Or.inr (h5 e he)))
        · rw [hloop]
          simpa [scopeRun] using h6
      · intro hnone
        rw [hfind] at hnone
        obtain ⟨h1, h2, h3, h4⟩ := ih.2 hnone
        refine ⟨by rw [hloop]; exact h1, ?_, ?_, ?_⟩
        · rw [hloop]
          simpa [readCalls] using h2
        · rw [hloop]
          simp [pingCalls, h3]
        · rw [hloop]
          simpa [scopeRun] using h4

/-- The raw-serial prober trace is always handle-balanced: the context
manager pairs every successful open with a close. -/
theorem proberLoop_scope (openOk : Nat → Bool) (bs : List Nat) :
    scopeRun (proberLoop openOk bs) false = some false := by
  induction bs with
  | nil => rfl
  | cons b rest ih =>
    by_cases h : openOk b <;> simp [proberLoop, h, scopeRun, ih]

/-- The pinger trace is handle-balanced whenever no `ping` and no baud-rate
register read raises (no hypotheses on the SDK import or on open
success). -/
theorem pingerLoop_scope (env : ScsEnv) (motor_id : Nat)
    (hpx : pingNoExn env) (hr1 : read1NoExn env) (bs : List Nat) :
    scopeRun (exceptTrace (pingerLoop env motor_id bs)) false = some false := by
  induction bs with
  | nil => rfl
  | cons b rest ih =>
    by_cases hsdk : env.sdkAvailable = false
    · simp [pingerLoop, hsdk, exceptTrace, scopeRun]
    · have hsdk2 : env.sdkAvailable = true := by
        revert hsdk; cases env.sdkAvailable <;> simp
      by_cases hob : env.openPortOk b = false
      · simpa [pingerLoop, hsdk2, hob] using ih
      · have hob2 : env.openPortOk b = true := by
          revert hob; cases env.openPortOk b <;> simp
        obtain ⟨reply, hreply⟩ := (SDKResult.ne_exn_iff _).1 (hpx b motor_id)
        by_cases hc : reply.comm = COMM_SUCCESS ∧ reply.error = 0
        · obtain ⟨rr, hrr⟩ := (SDKResult.ne_exn_iff _).1 (hr1 b motor_id 6)
          by_cases hc2 : rr.comm = COMM_SUCCESS ∧ rr.error = 0
          · rcases hrec : pingerLoop env motor_id rest with tr | ⟨rs, tr⟩ <;>
              rw [hrec] at ih <;> simp only [exceptTrace] at ih <;>
              simp [pingerLoop, hsdk2, hob2, hreply, hc, hrr, hc2, hrec,
                exceptTrace, scopeRun, ih]
          · rcases hrec : pingerLoop env motor_id rest with tr | ⟨rs, tr⟩ <;>
              rw [hrec] at ih <;> simp only [exceptTrace] at ih <;>
              simp [pingerLoop, hsdk2, hob2, hreply, hc, hrr, hc2, hrec,
                exceptTrace, scopeRun, ih]
        · rcases hrec : pingerLoop env motor_id rest with tr | ⟨rs, tr⟩ <;>
            rw [hrec] at ih <;> simp only [exceptTrace] at ih <;>
            simp [pingerLoop, hsdk2, hob2, hreply, hc, hrec, exceptTrace,
              scopeRun, ih]

/-- The scanner trace is handle-balanced whenever no `ping` raises (no
hypotheses on the SDK import or on open success). -/
theorem scanLoop_scope (env : ScsEnv) (hpx : pingNoExn env) (bs : List Nat) :
    scopeRun (exceptTrace (scanLoop env bs)) false = some false := by
  induction bs with
  | nil => rfl
  | cons b rest ih =>
    by_cases hsdk : env.sdkAvailable = false
    · simp [scanLoop, hsdk, exceptTrace, scopeRun]
    · have hsdk2 : env.sdkAvailable = true := by
        revert hsdk; cases env.sdkAvailable <;> simp
      by_cases hob : env.openPortOk b = false
      · simpa [scanLoop, hsdk2, hob] using ih
      · have hob2 : env.openPortOk b = true := by
          revert hob; cases env.openPortOk b <;> simp
        rcases hrec : scanLoop env rest with tr | ⟨fm, tr⟩ <;>
          rw [hrec] at ih <;> simp only [exceptTrace] at ih <;>
          simp [scanLoop, hsdk2, hob2, scanIdsLoop_run env b hpx, hrec,
            exceptTrace, scopeRun, scopeRun_append, scopeRun_map_pingSent, ih]

/-- The detailed-reader trace is handle-balanced whenever no `ping` raises
(register reads may raise; no hypothesis on open success). -/
theorem detailedLoop_scope (env : ScsEnv) (motor_id : Nat)
    (hpx : pingNoExn env) (bs : List Nat) :
    scopeRun (detailedLoop env motor_id bs).2 false = some false := by
  induction bs with
  | nil => rfl
  | cons b rest ih =>
    by_cases hob : env.openPortOk b = false
    · simpa [detailedLoop, hob] using ih
    · have hob2 : env.openPortOk b = true := by
        revert hob; cases env.openPortOk b <;> simp
      obtain ⟨reply, hreply⟩ := (SDKResult.ne_exn_iff _).1 (hpx b motor_id)
      by_cases hc : reply.comm = COMM_SUCCESS ∧ reply.error = 0
      · simp only [detailedLoop, hob2, Bool.true_eq_false, if_false, hreply,
          if_pos hc]
        simp only [scopeRun_openPort_closed, scopeRun_pingSent,
          scopeRun_append, detailedRegisterDump_scope]
        simp [scopeRun_closePort_open, scopeRun_nil]
      · simp only [detailedLoop, hob2, Bool.true_eq_false, if_false, hreply,
          if_neg hc]
        simpa [scopeRun] using ih

/-- The pinger's returned trace is the loop's trace in both exit modes. -/
theorem check_feetech_motor_baudrate_snd (env : ScsEnv) (motor_id : Nat) :
    (check_feetech_motor_baudrate env motor_id).2 =
      exceptTrace (pingerLoop env motor_id feetechBaudrates) := by
  unfold check_feetech_motor_baudrate exceptTrace
  rcases pingerLoop env motor_id feetechBaudrates with tr | ⟨rs, tr⟩ <;> rfl

/-- The scanner's returned trace is the loop's trace in both exit modes. -/
theorem scan_feetech_bus_snd (env : ScsEnv) :
    (scan_feetech_bus env).2 = exceptTrace (scanLoop env feetechBaudrates) := by
  unfold scan_feetech_bus exceptTrace
  rcases scanLoop env feetechBaudrates with tr | ⟨fm, tr⟩ <;> rfl

/-- No SDK call raises in the all-success test environment. -/
theorem envAllOk_noExn : noExn envAllOk := by
  refine ⟨?_, ?_, ?_⟩ <;> intro b motor_id <;> simp [envAllOk]

/-- No SDK call raises in the mismatch test environment. -/
theorem envMismatch_noExn : noExn envMismatch := by
  refine ⟨?_, ?_, ?_⟩ <;> intro b motor_id <;> simp [envMismatch, envAllOk]

/-- No SDK call raises in the failed-register-read test environment. -/
theorem envReadFail_noExn : noExn envReadFail := by
  refine ⟨?_, ?_, ?_⟩ <;> intro b motor_id <;> simp [envReadFail, envAllOk]

/-- No SDK call raises in the out-of-table register test environment. -/
theorem envUnknownReg_noExn : noExn envUnknownReg := by
  refine ⟨?_, ?_, ?_⟩ <;> intro b motor_id <;> simp [envUnknownReg, envAllOk]

/-- `ping` never raises in the scan-mock test environment. -/
theorem envScanMock_pingNoExn : pingNoExn envScanMock := by
  intro b motor_id
  simp only [envScanMock, envAllOk]
  split <;> simp

/-- `ping` never raises in the raising-reads test environment. -/
theorem envDumpExn_pingNoExn : pingNoExn envDumpExn := by
  intro b motor_id
  simp [envDumpExn, envAllOk]

/-- C1 counterexample: in an environment where `ping` raises after the port
was opened, the pinger's bare `except Exception: continue` skips
`closePort`, so the trace opens a second handle while the first is still
open — the claimed open/close pairing fails under exceptions. -/
theorem C1_counterexample :
    handlesBalanced (check_feetech_motor_baudrate envLeak 1).2 = false := by
  decide

/-- C1 (amended): in executions where no SDK call raises, each routine
keeps at most one port handle open at a time and closes it before returning
or moving to the next baud-rate candidate; the raw-serial prober owes this
to its `with` block, the SDK routines only to exception-free control
flow. -/
theorem C1_handle_discipline (env : ScsEnv) (motor_id : Nat)
    (hnx : noExn env) :
    handlesBalanced (check_baudrates env.openPortOk) = true ∧
    handlesBalanced (check_feetech_motor_baudrate env motor_id).2 = true ∧
    handlesBalanced (scan_feetech_bus env).2 = true ∧
    handlesBalanced (check_feetech_motor_detailed env motor_id).2 = true := by
  obtain ⟨hpx, hr1, hr2⟩ := hnx
  refine ⟨?_, ?_, ?_, ?_⟩
  · simp [handlesBalanced, check_baudrates, proberLoop_scope]
  · rw [check_feetech_motor_baudrate_snd]
    simp [handlesBalanced, pingerLoop_scope env motor_id hpx hr1]
  · rw [scan_feetech_bus_snd]
    simp [handlesBalanced, scanLoop_scope env hpx]
  · unfold check_feetech_motor_detailed
    by_cases h : env.sdkAvailable = false
    · simp [h, handlesBalanced, scopeRun]
    · simp [h, handlesBalanced, detailedLoop_scope env motor_id hpx]

/-- C1 witness: the discipline holds on the all-success environment. -/
theorem C1_handle_discipline_witness :
    handlesBalanced (check_baudrates envAllOk.openPortOk) = true ∧
    handlesBalanced (check_feetech_motor_baudrate envAllOk 1).2 = true ∧
    handlesBalanced (scan_feetech_bus envAllOk).2 = true ∧
    handlesBalanced (check_feetech_motor_detailed envAllOk 1).2 = true :=
  C1_handle_discipline envAllOk 1 envAllOk_noExn

/-- C2 counterexample: on a fully answering environment the pinger pings at
128,000 — a rate absent from the prober's `baudrates` list — and never
pings at 9,600, which the prober's list contains: its candidate list is not
the prober's list traversed from highest to lowest. -/
theorem C2_counterexample :
    pingCalls (check_feetech_motor_baudrate envAllOk 1).2 ≠
      baudrates.reverse.map (fun b => (b, 1)) ∧
    (128000, 1) ∈ pingCalls (check_feetech_motor_baudrate envAllOk 1).2 ∧
    128000 ∉ baudrates ∧
    (9600, 1) ∉ pingCalls (check_feetech_motor_baudrate envAllOk 1).2 ∧
    9600 ∈ baudrates := by
  decide

/-- C2 (amended): the motor pinger iterates its own fixed eight-rate
candidate list, strictly decreasing from 1,000,000 down to 19,200; the list
is not the prober's `baudrates`: it contains 128,000, which the prober's
list lacks, and omits 9,600, which the prober's list has, while the other
seven rates are shared. -/
theorem C2_pinger_candidates (env : ScsEnv) (motor_id : Nat)
    (hsdk : env.sdkAvailable = true) (hopen : ∀ b, env.openPortOk b = true)
    (hnx : noExn env) :
    pingCalls (check_feetech_motor_baudrate env motor_id).2 =
      feetechBaudrates.map (fun b => (b, motor_id)) ∧
    List.Pairwise (fun a c => a > c) feetechBaudrates ∧
    feetechBaudrates.length = 8 ∧
    feetechBaudrates.head? = some 1000000 ∧
    feetechBaudrates.getLast? = some 19200 ∧
    9600 ∈ baudrates ∧ 9600 ∉ feetechBaudrates ∧
    128000 ∈ feetechBaudrates ∧ 128000 ∉ baudrates ∧
    (∀ b ∈ feetechBaudrates, b ≠ 128000 → b ∈ baudrates) := by
  obtain ⟨hpx, hr1, hr2⟩ := hnx
  obtain ⟨tr, htr, hping, hscope, hmatch, hinv⟩ :=
    pingerLoop_run env motor_id hsdk hopen hpx hr1 feetechBaudrates
  refine ⟨?_, by decide, by decide, by decide, by decide, by decide,
    by decide, by decide, by decide, by decide⟩
  rw [check_feetech_motor_baudrate_snd, htr]
  exact hping

/-- C2 witness: the amended candidate-list description on the all-success
environment. -/
theorem C2_pinger_candidates_witness :
    pingCalls (check_feetech_motor_baudrate envAllOk 1).2 =
      feetechBaudrates.map (fun b => (b, 1)) :=
  (C2_pinger_candidates envAllOk 1 rfl (fun _ => rfl) envAllOk_noExn).1

/-- C3: with the SDK importable, every open succeeding and no SDK call
raising, the pinger visits every candidate rate (it does not stop at the
first success), collects exactly one communication record per rate whose
ping succeeded, in candidate order, and returns the first such record — or
`None` when the motor answered at no candidate rate. -/
theorem C3_pinger_collects_all (env : ScsEnv) (motor_id : Nat)
    (hsdk : env.sdkAvailable = true) (hopen : ∀ b, env.openPortOk b = true)
    (hnx : noExn env) :
    ∃ tr,
      pingerLoop env motor_id feetechBaudrates =
        .ok ((feetechBaudrates.filter (fun b => pingSucceeds env b motor_id)).map
          (recordAt env motor_id), tr) ∧
      check_feetech_motor_baudrate env motor_id =
        (((feetechBaudrates.filter (fun b => pingSucceeds env b motor_id)).map
          (recordAt env motor_id)).head?, tr) ∧
      pingCalls tr = feetechBaudrates.map (fun b => (b, motor_id)) ∧
      (∀ r ∈ (feetechBaudrates.filter
          (fun b => pingSucceeds env b motor_id)).map (recordAt env motor_id),
        pingSucceeds env r.communication_baudrate motor_id = true) ∧
      ((∀ b ∈ feetechBaudrates, pingSucceeds env b motor_id = false) →
        (check_feetech_motor_baudrate env motor_id).1 = none) := by
  obtain ⟨hpx, hr1, hr2⟩ := hnx
  obtain ⟨tr, htr, hping, hscope, hmatch, hinv⟩ :=
    pingerLoop_run env motor_id hsdk hopen hpx hr1 feetechBaudrates
  refine ⟨tr, htr, ?_, hping, ?_, ?_⟩
  · unfold check_feetech_motor_baudrate
    rw [htr]
  · intro r hr
    obtain ⟨b, hb, rfl⟩ := List.mem_map.1 hr
    rw [recordAt_communication_baudrate]
    exact (List.mem_filter.1 hb).2
  · intro hall
    have hnilf :
        feetechBaudrates.filter (fun b => pingSucceeds env b motor_id) = [] :=
      List.filter_eq_nil_iff.2 (by intro a ha; simp [hall a ha])
    unfold check_feetech_motor_baudrate
    rw [htr, hnilf]
    rfl

/-- C3 witness: on the all-success environment the pinger returns the
record of the first (highest) candidate rate, and pings all eight rates. -/
theorem C3_pinger_collects_all_witness :
    (check_feetech_motor_baudrate envAllOk 1).1 =
      some { communication_baudrate := 1000000
             configured_baudrate := ConfiguredBaud.rate 1000000
             register_value := some 0
             model_number := 777
             model_name := "sts3215" } ∧
    pingCalls (check_feetech_motor_baudrate envAllOk 1).2 =
      feetechBaudrates.map (fun b => (b, 1)) := by
  obtain ⟨tr, htr, hres, hping, hrec, hnone⟩ :=
    C3_pinger_collects_all envAllOk 1 rfl (fun _ => rfl) envAllOk_noExn
  constructor
  · rw [hres]
    rfl
  · rw [hres]
    exact hping

/-- C4: with the SDK importable, every open succeeding and no ping raising,
the scanner pings ids 1-20 at every candidate rate and returns the mapping
that keeps, in candidate order, exactly the rates with at least one
responder, each mapped to its responders' records in ascending id order. -/
theorem C4_scanner_mapping (env : ScsEnv)
    (hsdk : env.sdkAvailable = true) (hopen : ∀ b, env.openPortOk b = true)
    (hpx : pingNoExn env) :
    ∃ tr,
      scan_feetech_bus env =
        (some ((feetechBaudrates.map (fun b => (b, respondersAt env b))).filter
          (fun p => !p.2.isEmpty)), tr) ∧
      pingCalls tr =
        (feetechBaudrates.map (fun b =>
          (List.range' 1 20).map (fun motor_id => (b, motor_id)))).flatten ∧
      (∀ b, (∃ ms, (b, ms) ∈ (feetechBaudrates.map
          (fun x => (x, respondersAt env x))).filter (fun p => !p.2.isEmpty)) ↔
        (b ∈ feetechBaudrates ∧
          ∃ motor_id ∈ List.range' 1 20,
            pingSucceeds env b motor_id = true)) ∧
      (∀ p ∈ (feetechBaudrates.map (fun x => (x, respondersAt env x))).filter
          (fun q => !q.2.isEmpty),
        p.2 = respondersAt env p.1 ∧
        List.Pairwise (fun a c => a < c) (p.2.map MotorInfo.id)) := by
  obtain ⟨tr, htr, hping, hscope⟩ := scanLoop_run env hsdk hopen hpx
    feetechBaudrates
  have hne : ∀ x : Nat, (respondersAt env x).isEmpty = false ↔
      ∃ motor_id ∈ List.range' 1 20, pingSucceeds env x motor_id = true := by
    intro x
    unfold respondersAt
    rw [List.isEmpty_eq_false, Ne, List.map_eq_nil_iff]
    constructor
    · intro h
      rcases List.exists_mem_of_ne_nil _ h with ⟨motor_id, hm⟩
      exact ⟨motor_id, (List.mem_filter.1 hm).1, (List.mem_filter.1 hm).2⟩
    · intro ⟨motor_id, hm, hs⟩ hcon
      exact absurd (List.mem_filter.2 ⟨hm, hs⟩) (by simp [hcon])
  refine ⟨tr, ?_, hping, ?_, ?_⟩
  · unfold scan_feetech_bus
    rw [htr]
  · intro b
    constructor
    · rintro ⟨ms, hmem⟩
      obtain ⟨hmap, hkeep⟩ := List.mem_filter.1 hmem
      obtain ⟨x, hx, hxeq⟩ := List.mem_map.1 hmap
      obtain ⟨h1, h2⟩ : x = b ∧ respondersAt env x = ms := by
        injection hxeq with ha hb
        exact ⟨ha, hb⟩
      refine ⟨h1 ▸ hx, (hne b).1 ?_⟩
      rw [← h1, h2]
      revert hkeep
      cases ms.isEmpty <;> simp
    · rintro ⟨hb, motor_id, hm, hs⟩
      refine ⟨respondersAt env b, List.mem_filter.2 ⟨List.mem_map.2 ⟨b, hb, rfl⟩, ?_⟩⟩
      rw [(by cases (respondersAt env b).isEmpty <;> simp :
        (!(respondersAt env b).isEmpty) = true ↔
          (respondersAt env b).isEmpty = false)]
      exact (hne b).2 ⟨motor_id, hm, hs⟩
  · intro p hp
    obtain ⟨hmap, hkeep⟩ := List.mem_filter.1 hp
    obtain ⟨x, hx, hxeq⟩ := List.mem_map.1 hmap
    obtain rfl : (x, respondersAt env x) = p := hxeq
    refine ⟨rfl, ?_⟩
    have hids : (respondersAt env x).map MotorInfo.id =
        (List.range' 1 20).filter (fun motor_id => pingSucceeds env x motor_id) := by
      unfold respondersAt
      rw [List.map_map]
      have hstep : ∀ l : List Nat,
          l.map (MotorInfo.id ∘ motorInfoAt env x) = l := by
        intro l
        induction l with
        | nil => rfl
        | cons a l ih => simp [Function.comp, motorInfoAt_id, ih]
      exact hstep _
    rw [hids]
    exact List.Pairwise.filter _
      (by decide : List.Pairwise (fun a c => a < c) (List.range' 1 20))

/-- C4 witness: with the mock where only ids 3 and 7 answer, and only at
1,000,000 baud, the scanner returns exactly the one key 1,000,000 mapped to
the records of ids 3 and 7. -/
theorem C4_scanner_mapping_witness :
    (scan_feetech_bus envScanMock).1 =
      some [(1000000,
        [{ id := 3, model_number := 777, model_name := "sts3215",
           baudrate := 1000000 },
         { id := 7, model_number := 777, model_name := "sts3215",
           baudrate := 1000000 }])] := by
  obtain ⟨tr, htr, hping, hiff, hpair⟩ :=
    C4_scanner_mapping envScanMock rfl (fun _ => rfl) envScanMock_pingNoExn
  rw [htr]
  rfl

/-- C5: if importing the servo SDK fails, `check_feetech_motor_baudrate`
returns `None`, `scan_feetech_bus` returns `None`, and
`check_feetech_motor_detailed` returns `False`, each without raising and
with the installation hint as its only observable event. -/
theorem C5_import_failure (env : ScsEnv) (motor_id : Nat)
    (h : env.sdkAvailable = false) :
    check_feetech_motor_baudrate env motor_id = (none, [Event.hint]) ∧
    scan_feetech_bus env = (none, [Event.hint]) ∧
    check_feetech_motor_detailed env motor_id = (false, [Event.hint]) := by
  refine ⟨?_, ?_, ?_⟩
  · simp [check_feetech_motor_baudrate, feetechBaudrates, pingerLoop, h]
  · simp [scan_feetech_bus, feetechBaudrates, scanLoop, h]
  · simp [check_feetech_motor_detailed, h]

/-- C5 witness: the three sentinels on the SDK-less environment. -/
theorem C5_import_failure_witness :
    check_feetech_motor_baudrate envNoSdk 1 = (none, [Event.hint]) ∧
    scan_feetech_bus envNoSdk = (none, [Event.hint]) ∧
    check_feetech_motor_detailed envNoSdk 1 = (false, [Event.hint]) :=
  C5_import_failure envNoSdk 1 rfl

/-- C6: the baud-rate register is decoded through the fixed eight-entry
code table (in particular value 2 decodes to 250,000); after a successful
ping and a successful register read, the pinger stores the decoded rate in
the record and reports whether it matches the communication rate — a
differing decoded rate is flagged as a mismatch, not as a match and not as
an error (the record is still produced). -/
theorem C6_decode_and_flag (env : ScsEnv) (motor_id b mn v : Nat)
    (hsdk : env.sdkAvailable = true) (hopen : ∀ x, env.openPortOk x = true)
    (hpx : pingNoExn env) (hr1 : read1NoExn env)
    (hb : b ∈ feetechBaudrates)
    (hp : env.ping b motor_id =
      .ok { modelNumber := mn, comm := COMM_SUCCESS, error := 0 })
    (hr : env.read1 b motor_id 6 =
      .ok { value := v, comm := COMM_SUCCESS, error := 0 }) :
    (feetech_baudrates 0 = ConfiguredBaud.rate 1000000 ∧
     feetech_baudrates 1 = ConfiguredBaud.rate 500000 ∧
     feetech_baudrates 2 = ConfiguredBaud.rate 250000 ∧
     feetech_baudrates 3 = ConfiguredBaud.rate 128000 ∧
     feetech_baudrates 4 = ConfiguredBaud.rate 115200 ∧
     feetech_baudrates 5 = ConfiguredBaud.rate 57600 ∧
     feetech_baudrates 6 = ConfiguredBaud.rate 38400 ∧
     feetech_baudrates 7 = ConfiguredBaud.rate 19200) ∧
    ∃ rs tr, pingerLoop env motor_id feetechBaudrates = .ok (rs, tr) ∧
      { communication_baudrate := b,
        configured_baudrate := feetech_baudrates v,
        register_value := some v, model_number := mn,
        model_name := lookupModelName env.modelTable mn } ∈ rs ∧
      Event.matchFlag b
        (decide (ConfiguredBaud.rate b = feetech_baudrates v)) ∈ tr ∧
      (feetech_baudrates v ≠ ConfiguredBaud.rate b →
        Event.matchFlag b false ∈ tr ∧ Event.matchFlag b true ∉ tr) := by
  obtain ⟨tr, htr, hping, hscope, hmatch, hinv⟩ :=
    pingerLoop_run env motor_id hsdk hopen hpx hr1 feetechBaudrates
  have hps : pingSucceeds env b motor_id = true := by
    simp [pingSucceeds, hp, COMM_SUCCESS]
  refine ⟨by decide, _, tr, htr, ?_, ?_, ?_⟩
  · refine List.mem_map.2 ⟨b, List.mem_filter.2 ⟨hb, hps⟩, ?_⟩
    simp [recordAt, hp, hr, COMM_SUCCESS]
  · exact hmatch b _ _ hb hp ⟨rfl, rfl⟩ hr ⟨rfl, rfl⟩
  · intro hne
    have hdec : decide (ConfiguredBaud.rate b = feetech_baudrates v) = false :=
      decide_eq_false (fun hcon => hne hcon.symm)
    constructor
    · have := hmatch b _ _ hb hp ⟨rfl, rfl⟩ hr ⟨rfl, rfl⟩
      rwa [hdec] at this
    · intro hmem
      obtain ⟨reply, rr, hxr, hc1, hc2, hxr1, hc3, hc4, heqm⟩ :=
        hinv b true hmem
      rw [hp] at hxr
      rw [hr] at hxr1
      cases hxr
      cases hxr1
      rw [hdec] at heqm
      cases heqm

/-- C6 witness: with the register reading back code 2, the decoded rate is
250,000, and at communication rate 1,000,000 the mismatch is flagged. -/
theorem C6_decode_and_flag_witness :
    feetech_baudrates 2 = ConfiguredBaud.rate 250000 ∧
    ∃ rs tr, pingerLoop envMismatch 1 feetechBaudrates = .ok (rs, tr) ∧
      { communication_baudrate := 1000000,
        configured_baudrate := feetech_baudrates 2,
        register_value := some 2, model_number := 777,
        model_name := lookupModelName envMismatch.modelTable 777 } ∈ rs ∧
      Event.matchFlag 1000000 false ∈ tr ∧
      Event.matchFlag 1000000 true ∉ tr := by
  obtain ⟨htable, rs, tr, htr, hrec, hflag, hmis⟩ :=
    C6_decode_and_flag envMismatch 1 1000000 777 2 rfl (fun _ => rfl)
      envMismatch_noExn.1 envMismatch_noExn.2.1 (by decide) rfl rfl
  obtain ⟨hfalse, hnotrue⟩ := hmis (by decide)
  exact ⟨htable.2.2.1, rs, tr, htr, hrec, hfalse, hnotrue⟩

/-- C7: with the SDK importable, opens succeeding and no SDK call raising,
the detailed reader stops at the first candidate rate whose ping succeeds,
issues exactly the fixed register-read sequence — 1-byte reads at addresses
6, 5, 0, 1, 2-byte reads at 9, 11, 56, and the 1-byte torque-enable read at
40 reported as the boolean non-zero — and returns `True`; if no candidate
rate yields a ping success it returns `False` with no register read. -/
theorem C7_detailed_sequence (env : ScsEnv) (motor_id : Nat)
    (hsdk : env.sdkAvailable = true) (hopen : ∀ b, env.openPortOk b = true)
    (hnx : noExn env) :
    (∀ b, feetechBaudrates.find? (fun x => pingSucceeds env x motor_id) =
        some b →
      (check_feetech_motor_detailed env motor_id).1 = true ∧
      pingCalls (check_feetech_motor_detailed env motor_id).2 =
        ((feetechBaudrates.takeWhile (fun x => !pingSucceeds env x motor_id))
          ++ [b]).map (fun x => (x, motor_id)) ∧
      readCalls (check_feetech_motor_detailed env motor_id).2 =
        [(1, b, motor_id, 6), (1, b, motor_id, 5), (1, b, motor_id, 0),
         (1, b, motor_id, 1), (2, b, motor_id, 9), (2, b, motor_id, 11),
         (2, b, motor_id, 56), (1, b, motor_id, 40)] ∧
      (∃ t, env.read1 b motor_id 40 = .ok t ∧
        Event.torqueReport (decide (t.value ≠ 0)) ∈
          (check_feetech_motor_detailed env motor_id).2)) ∧
    (feetechBaudrates.find? (fun x => pingSucceeds env x motor_id) = none →
      (check_feetech_motor_detailed env motor_id).1 = false ∧
      readCalls (check_feetech_motor_detailed env motor_id).2 = []) := by
  obtain ⟨hpx, hr1, hr2⟩ := hnx
  have hdet : check_feetech_motor_detailed env motor_id =
      detailedLoop env motor_id feetechBaudrates := by
    simp [check_feetech_motor_detailed, hsdk]
  obtain ⟨hfound, hnone⟩ :=
    detailedLoop_run env motor_id hopen hpx feetechBaudrates
  constructor
  · intro b hfind
    obtain ⟨h1, h2, h3, h4, h5, h6⟩ := hfound b hfind
    obtain ⟨t, ht, hdump⟩ := detailedRegisterDump_run env b motor_id hr1 hr2
    refine ⟨by rw [hdet]; exact h1, by rw [hdet]; exact h2, ?_, t, ht, ?_⟩
    · rw [hdet, h3, hdump]
      rfl
    · rw [hdet]
      refine h5 _ ?_
      rw [hdump]
      simp
  · intro hfind
    obtain ⟨h1, h2, h3, h4⟩ := hnone hfind
    exact ⟨by rw [hdet]; exact h1, by rw [hdet]; exact h2⟩

/-- C7 witness: on the all-success environment the reader stops at
1,000,000, performs the fixed read sequence and returns `True`. -/
theorem C7_detailed_sequence_witness :
    (check_feetech_motor_detailed envAllOk 1).1 = true ∧
    readCalls (check_feetech_motor_detailed envAllOk 1).2 =
      [(1, 1000000, 1, 6), (1, 1000000, 1, 5), (1, 1000000, 1, 0),
       (1, 1000000, 1, 1), (2, 1000000, 1, 9), (2, 1000000, 1, 11),
       (2, 1000000, 1, 56), (1, 1000000, 1, 40)] := by
  obtain ⟨hfound, hnone⟩ :=
    C7_detailed_sequence envAllOk 1 rfl (fun _ => rfl) envAllOk_noExn
  obtain ⟨h1, h2, h3, h4⟩ := hfound 1000000 (by decide)
  exact ⟨h1, h3⟩

/-- C8: with the SDK importable, opens succeeding and `ping` never raising,
any exception raised by the register reads after a successful ping is
caught: the detailed reader still closes the port and still returns `True`
for that ping, with a handle-balanced trace. -/
theorem C8_read_exception_tolerated (env : ScsEnv) (motor_id b : Nat)
    (hsdk : env.sdkAvailable = true) (hopen : ∀ x, env.openPortOk x = true)
    (hpx : pingNoExn env)
    (hfind : feetechBaudrates.find? (fun x => pingSucceeds env x motor_id) =
      some b) :
    (check_feetech_motor_detailed env motor_id).1 = true ∧
    Event.closePort b ∈ (check_feetech_motor_detailed env motor_id).2 ∧
    handlesBalanced (check_feetech_motor_detailed env motor_id).2 = true := by
  have hdet : check_feetech_motor_detailed env motor_id =
      detailedLoop env motor_id feetechBaudrates := by
    simp [check_feetech_motor_detailed, hsdk]
  obtain ⟨h1, h2, h3, h4, h5, h6⟩ :=
    (detailedLoop_run env motor_id hopen hpx feetechBaudrates).1 b hfind
  refine ⟨by rw [hdet]; exact h1, by rw [hdet]; exact h4, ?_⟩
  rw [hdet]
  simp [handlesBalanced, h6]

/-- C8 witness: with every register read raising, the reader still returns
`True` at the first rate, closes the port, and keeps a balanced trace. -/
theorem C8_read_exception_tolerated_witness :
    (check_feetech_motor_detailed envDumpExn 1).1 = true ∧
    Event.closePort 1000000 ∈ (check_feetech_motor_detailed envDumpExn 1).2 ∧
    handlesBalanced (check_feetech_motor_detailed envDumpExn 1).2 = true :=
  C8_read_exception_tolerated envDumpExn 1 1000000 rfl (fun _ => rfl)
    envDumpExn_pingNoExn (by decide)

/-- C9: when the ping at the first successful rate is answered but the
baud-rate register read comes back with a failing status, the pinger still
appends a record for that rate — with register value `None`, configured
baud rate `"Unable to read"` and model name `"Unknown"` — and that record
is the representative result returned to the caller. -/
theorem C9_read_failure_record (env : ScsEnv) (motor_id b mn v c e : Nat)
    (hsdk : env.sdkAvailable = true) (hopen : ∀ x, env.openPortOk x = true)
    (hnx : noExn env)
    (hfind : feetechBaudrates.find? (fun x => pingSucceeds env x motor_id) =
      some b)
    (hp : env.ping b motor_id =
      .ok { modelNumber := mn, comm := COMM_SUCCESS, error := 0 })
    (hr : env.read1 b motor_id 6 = .ok { value := v, comm := c, error := e })
    (hfail : ¬(c = COMM_SUCCESS ∧ e = 0)) :
    (check_feetech_motor_baudrate env motor_id).1 =
      some { communication_baudrate := b,
             configured_baudrate := ConfiguredBaud.unableToRead,
             register_value := none, model_number := mn,
             model_name := "Unknown" } := by
  obtain ⟨hpx, hr1, hr2⟩ := hnx
  obtain ⟨tr, htr, hping, hscope, hmatch, hinv⟩ :=
    pingerLoop_run env motor_id hsdk hopen hpx hr1 feetechBaudrates
  have hres : (check_feetech_motor_baudrate env motor_id).1 =
      ((feetechBaudrates.filter (fun x => pingSucceeds env x motor_id)).map
        (recordAt env motor_id)).head? := by
    unfold check_feetech_motor_baudrate
    rw [htr]
  have hhead : (feetechBaudrates.filter
      (fun x => pingSucceeds env x motor_id)).head? = some b := by
    rw [← find?_eq_filter_head?]
    exact hfind
  rw [hres, List.head?_map, hhead]
  simp [recordAt, hp, hr, hfail]

/-- C9 witness: with the register read failing at every rate, the returned
representative is the `"Unable to read"` record of the first rate. -/
theorem C9_read_failure_record_witness :
    (check_feetech_motor_baudrate envReadFail 1).1 =
      some { communication_baudrate := 1000000,
             configured_baudrate := ConfiguredBaud.unableToRead,
             register_value := none, model_number := 777,
             model_name := "Unknown" } :=
  C9_read_failure_record envReadFail 1 1000000 777 0 1 0 rfl (fun _ => rfl)
    envReadFail_noExn (by decide) rfl rfl (by decide)

/-- C10: the baud-rate decode is total — every register value outside 0-7
decodes to the `"Unknown"` sentinel without raising — and a record with an
unknown decoded rate is never reported as matching the communication rate:
the mismatch flag is emitted and no match flag for that rate exists. -/
theorem C10_unknown_code (env : ScsEnv) (motor_id b mn v : Nat) (hv : 8 ≤ v)
    (hsdk : env.sdkAvailable = true) (hopen : ∀ x, env.openPortOk x = true)
    (hpx : pingNoExn env) (hr1 : read1NoExn env)
    (hb : b ∈ feetechBaudrates)
    (hp : env.ping b motor_id =
      .ok { modelNumber := mn, comm := COMM_SUCCESS, error := 0 })
    (hr : env.read1 b motor_id 6 =
      .ok { value := v, comm := COMM_SUCCESS, error := 0 }) :
    feetech_baudrates v = ConfiguredBaud.unknown ∧
    ∃ rs tr, pingerLoop env motor_id feetechBaudrates = .ok (rs, tr) ∧
      { communication_baudrate := b,
        configured_baudrate := ConfiguredBaud.unknown,
        register_value := some v, model_number := mn,
        model_name := lookupModelName env.modelTable mn } ∈ rs ∧
      Event.matchFlag b false ∈ tr ∧
      Event.matchFlag b true ∉ tr := by
  have hunk := feetech_baudrates_of_ge v hv
  obtain ⟨tr, htr, hping, hscope, hmatch, hinv⟩ :=
    pingerLoop_run env motor_id hsdk hopen hpx hr1 feetechBaudrates
  have hps : pingSucceeds env b motor_id = true := by
    simp [pingSucceeds, hp, COMM_SUCCESS]
  have hdec : decide (ConfiguredBaud.rate b = feetech_baudrates v) = false := by
    rw [hunk]
    exact decide_eq_false (by intro hcon; cases hcon)
  refine ⟨hunk, _, tr, htr, ?_, ?_, ?_⟩
  · refine List.mem_map.2 ⟨b, List.mem_filter.2 ⟨hb, hps⟩, ?_⟩
    simp [recordAt, hp, hr, COMM_SUCCESS, hunk]
  · have := hmatch b _ _ hb hp ⟨rfl, rfl⟩ hr ⟨rfl, rfl⟩
    rwa [hdec] at this
  · intro hmem
    obtain ⟨reply, rr, hxr, hc1, hc2, hxr1, hc3, hc4, heqm⟩ :=
      hinv b true hmem
    rw [hp] at hxr
    rw [hr] at hxr1
    cases hxr
    cases hxr1
    rw [hdec] at heqm
    cases heqm

/-- C10 witness: register value 9 decodes to `"Unknown"` and the record at
rate 1,000,000 is flagged as a mismatch, never as a match. -/
theorem C10_unknown_code_witness :
    feetech_baudrates 9 = ConfiguredBaud.unknown ∧
    ∃ rs tr, pingerLoop envUnknownReg 1 feetechBaudrates = .ok (rs, tr) ∧
      { communication_baudrate := 1000000,
        configured_baudrate := ConfiguredBaud.unknown,
        register_value := some 9, model_number := 777,
        model_name := lookupModelName envUnknownReg.modelTable 777 } ∈ rs ∧
      Event.matchFlag 1000000 false ∈ tr ∧
      Event.matchFlag 1000000 true ∉ tr :=
  C10_unknown_code envUnknownReg 1 1000000 777 9 (by decide) rfl
    (fun _ => rfl) envUnknownReg_noExn.1 envUnknownReg_noExn.2.1 (by decide)
    rfl rfl

end CheckBaudrate
